import Mathlib

/-!
Verification of the rep cell process wiring (cmd/rep/main.go) against its
natural-language specification.  Go strings are modelled as lists of
characters, Go byte slices as lists of naturals, and the external
collaborators (file system, PEM/X509 decoding, locket, executor, ifrit
supervision) as explicit inputs to the embedded functions.
-/

namespace RepMain

/-! ## Models of the Go standard-library string helpers used by main.go -/

/-- Model of Go strings.Split for a single-character separator:
splits around every occurrence of the separator; a string without the
separator yields a one-element result. -/
def splitOnCharGo (sep : Char) : List Char → List (List Char)
  | [] => [[]]
  | c :: cs =>
    let rest := splitOnCharGo sep cs
    if c = sep then [] :: rest
    else
      match rest with
      | [] => [[c]]
      | h :: t => (c :: h) :: t

theorem splitOnCharGo_ne_nil (sep : Char) (s : List Char) :
    splitOnCharGo sep s ≠ [] := by
  cases s with
  | nil => simp [splitOnCharGo]
  | cons c cs =>
    simp only [splitOnCharGo]
    split
    · simp
    · split <;> simp

/-- A string without the separator splits into the single piece that is the
whole string. -/
theorem splitOnCharGo_of_not_mem (sep : Char) (s : List Char)
    (h : ∀ c ∈ s, c ≠ sep) : splitOnCharGo sep s = [s] := by
  induction s with
  | nil => rfl
  | cons c cs ih =>
    have hc : c ≠ sep := h c (List.mem_cons_self c cs)
    have hrest : splitOnCharGo sep cs = [cs] :=
      ih (fun x hx => h x (List.mem_cons_of_mem c hx))
    simp [splitOnCharGo, hrest, hc]

/-- Model of Go filepath.Ext via a scan of the reversed path: the suffix
starting at the final dot of the final path element, empty when that
element has no dot.  The accumulator rebuilds the scanned suffix in
forward order. -/
def extScan (acc : List Char) : List Char → List Char
  | [] => []
  | c :: cs =>
    if c = '/' then []
    else if c = '.' then c :: acc
    else extScan (c :: acc) cs

/-- Model of Go filepath.Ext. -/
def extGo (p : List Char) : List Char := extScan [] p.reverse

/-- Model of Go filepath.Base restricted to paths that do not end in a
separator: the part after the final slash. -/
def baseGo (p : List Char) : List Char :=
  (p.reverse.takeWhile (fun c => c ≠ '/')).reverse

/-- Whether suf is a suffix of s, as Go strings.HasSuffix. -/
def hasSuffixGo (s suf : List Char) : Bool :=
  suf.reverse.isPrefixOf s.reverse

/-- Model of Go strings.TrimSuffix. -/
def trimSuffixGo (s suf : List Char) : List Char :=
  if hasSuffixGo s suf then s.take (s.length - suf.length) else s

/-- Model of Go strings.EqualFold restricted to the ASCII case folding that
the ".tar" comparison in main.go exercises. -/
def eqFoldGo (a b : List Char) : Bool :=
  a.map Char.toLower == b.map Char.toLower

/-- Model of Go strings.Replace(s, "_", "-", -1) as used by repHost:
every underscore becomes a dash. -/
def replaceUnderscores (s : List Char) : List Char :=
  s.map (fun c => if c = '_' then '-' else c)

/-! ## repHost, repURL and repAddress (main.go lines 363-381) -/

/-- Configuration fields of RepConfig that the embedded fragment of main.go
reads.  Strings are lists of characters. -/
structure RepConfig where
  cellID : List Char
  listenAddr : List Char
  listenAddrSecurable : List Char
  advertiseDomain : List Char
  debugAddress : List Char
  preloadedRootFS : List (List Char × List Char)
deriving DecidableEq

/-- repHost from main.go: the cell id with underscores replaced by dashes. -/
def repHost (cellID : List Char) : List Char := replaceUnderscores cellID

/-- repURL from main.go: indexes element 1 of splitting ListenAddrSecurable
on a colon.  The missing-index case is Go panicking with index out of
range, modelled as none. -/
def repURL (config : RepConfig) : Option (List Char) :=
  match (splitOnCharGo ':' config.listenAddrSecurable)[1]? with
  | none => none
  | some port =>
      some ("https://".data ++ repHost config.cellID ++ ".".data ++
        config.advertiseDomain ++ ":".data ++ port)

/-- repAddress from main.go, given the already-fetched local IP: indexes
element 1 of splitting ListenAddr on a colon; none models the index out of
range panic. -/
def repAddress (ip : List Char) (config : RepConfig) : Option (List Char) :=
  match (splitOnCharGo ':' config.listenAddr)[1]? with
  | none => none
  | some port => some ("http://".data ++ ip ++ ":".data ++ port)

theorem repURL_of_no_colon (config : RepConfig)
    (h : ∀ c ∈ config.listenAddrSecurable, c ≠ ':') : repURL config = none := by
  unfold repURL
  rw [splitOnCharGo_of_not_mem ':' _ h]
  rfl

theorem repAddress_of_no_colon (ip : List Char) (config : RepConfig)
    (h : ∀ c ∈ config.listenAddr, c ≠ ':') : repAddress ip config = none := by
  unfold repAddress
  rw [splitOnCharGo_of_not_mem ':' _ h]
  rfl

/-! ## verifyCertificate (main.go lines 397-429)

The Go standard-library collaborators are modelled at the level the
function observes them: reading the certificate file either fails or
yields, after the TrimSpace, a sequence of PEM blocks (their Bytes
fields) possibly followed by residual text containing no further block;
x509.ParseCertificates is an explicit parameter turning the concatenated
DER bytes into certificates or an error. -/

/-- The slice of an x509 certificate that verifyCertificate reads: its IP
subject-alternative-names, each an IPv4 address as four octets. -/
structure GoCert where
  ipAddresses : List (List Nat)
deriving DecidableEq

/-- What reading and trimming the certificate file produces: a read error,
or the PEM block byte fields in order plus whether undecodable residual
text follows the blocks.  An empty file is blocks [] false; a file with no
PEM block at all is blocks [] g. -/
inductive PemFileContent where
  | unreadable
  | blocks (bs : List (List Nat)) (trailingGarbage : Bool)
deriving DecidableEq

/-- The decode loop of verifyCertificate: pem.Decode peels one block per
iteration and the loop stops once the remaining input is empty; a nil
block (no block in the remaining input) aborts with the parse failure,
modelled as none.  Returns the concatenation of the block byte fields. -/
def pemCollect : List (List Nat) → Bool → Option (List Nat)
  | [], _ => none
  | [b], g => if g then none else some b
  | b :: rest, g => (pemCollect rest g).map (fun t => b ++ t)

theorem pemCollect_garbage (bs : List (List Nat)) (h : bs ≠ []) :
    pemCollect bs true = none := by
  induction bs with
  | nil => exact absurd rfl h
  | cons b rest ih =>
    cases rest with
    | nil => rfl
    | cons b2 rest2 =>
      show (pemCollect (b2 :: rest2) true).map _ = none
      rw [ih (by simp)]
      rfl

/-- A nonempty sequence of PEM blocks whose byte fields are all empty
collects to the empty DER input. -/
theorem pemCollect_all_empty (bs : List (List Nat)) (h : bs ≠ [])
    (hall : ∀ b ∈ bs, b = []) : pemCollect bs false = some [] := by
  induction bs with
  | nil => exact absurd rfl h
  | cons b rest ih =>
    have hb : b = [] := hall b (List.mem_cons_self b rest)
    cases rest with
    | nil => simp [pemCollect, hb]
    | cons b2 rest2 =>
      have : pemCollect (b2 :: rest2) false = some [] :=
        ih (by simp) (fun x hx => hall x (List.mem_cons_of_mem b hx))
      show (pemCollect (b2 :: rest2) false).map _ = some _
      rw [this, hb]
      rfl

/-- Outcome of verifyCertificate: a nil return, an error return, or the
index-out-of-range panic at certs[0]. -/
inductive VCResult where
  | ok
  | err (msg : List Char)
  | panicked
deriving DecidableEq

/-- The loopback address 127.0.0.1 as octets. -/
def localhostIP : List Nat := [127, 0, 0, 1]

/-- Shallow embedding of verifyCertificate from main.go.  parse stands for
x509.ParseCertificates.  The final loop over certs[0].IPAddresses first
evaluates certs[0], which panics when the parsed slice is empty. -/
def verifyCertificate (parse : List Nat → Except (List Char) (List GoCert)) :
    PemFileContent → VCResult
  | .unreadable => .err "read-error".data
  | .blocks bs g =>
    match pemCollect bs g with
    | none => .err "failed parsing cert".data
    | some der =>
      match parse der with
      | .error e => .err ("failed parsing cert: ".data ++ e)
      | .ok [] => .panicked
      | .ok (c :: _) =>
        if localhostIP ∈ c.ipAddresses then .ok
        else .err "invalid SAN metadata. certificate needs to contain 127.0.0.1 for IP SAN metadata.".data

/-! ## Go map assignment -/

/-- Removal of every binding of a key from the association-list model of a
Go map. -/
def mapErase [DecidableEq κ] (k : κ) : List (κ × ν) → List (κ × ν)
  | [] => []
  | (k2, v) :: rest =>
    if k2 = k then mapErase k rest else (k2, v) :: mapErase k rest

/-- Assignment m[k] = v on a Go map modelled as an association list:
the new binding shadows and removes any previous binding of the key. -/
def mapSet [DecidableEq κ] (m : List (κ × ν)) (k : κ) (v : ν) : List (κ × ν) :=
  (k, v) :: mapErase k m

/-- Reading a key from the association-list model of a Go map. -/
def mapGet [DecidableEq κ] (k : κ) : List (κ × ν) → Option ν
  | [] => none
  | (k2, v) :: rest => if k2 = k then some v else mapGet k rest

theorem mapGet_mapSet_self [DecidableEq κ] (m : List (κ × ν)) (k : κ) (v : ν) :
    mapGet k (mapSet m k v) = some v := by
  simp [mapSet, mapGet]

theorem mapGet_mapErase_ne [DecidableEq κ] (m : List (κ × ν)) (k k2 : κ)
    (h : k ≠ k2) : mapGet k2 (mapErase k m) = mapGet k2 m := by
  induction m with
  | nil => rfl
  | cons e rest ih =>
    cases e with
    | mk k3 v3 =>
      by_cases he : k3 = k
      · subst he
        have h2 : ¬ k3 = k2 := h
        simp [mapErase, mapGet, h2, ih]
      · have hk2 : ¬ k2 = k := fun hh => h hh.symm
        by_cases h32 : k3 = k2 <;> simp [mapErase, he, mapGet, h32, hk2, ih]

theorem mapGet_mapSet_ne [DecidableEq κ] (m : List (κ × ν)) (k k2 : κ) (v : ν)
    (h : k ≠ k2) : mapGet k2 (mapSet m k v) = mapGet k2 m := by
  simp only [mapSet, mapGet, if_neg h]
  exact mapGet_mapErase_ne m k k2 h

/-! ## The ExtraRootfsDir walk (main.go lines 103-116)

filepath.WalkDir is modelled by the list of visits it would make in walk
order; each visit carries the path and whether WalkDir passed a non-nil
error for it.  The callback returns the error when one is passed, which
makes WalkDir stop entirely and return that error; main only logs the
returned error at debug level. -/

/-- One visit of the directory walk. -/
structure WalkEntry where
  path : List Char
  isErr : Bool
deriving DecidableEq

/-- The ".tar" literal compared against the extension. -/
def tarSuffixLit : List Char := ".tar".data

/-- The key under which the walk callback files a visited path, when its
extension case-insensitively equals ".tar": the base name with the
extension trimmed.  none when the extension does not match. -/
def tarKeyOf (e : WalkEntry) : Option (List Char) :=
  let ext := extGo e.path
  if eqFoldGo ext tarSuffixLit then some (trimSuffixGo (baseGo e.path) ext) else none

/-- The walk of ExtraRootfsDir: the callback body of main.go applied to
each visit in order, aborting at the first error visit (the callback
returns the error, which stops WalkDir).  Returns the final root
filesystem map and whether WalkDir returned an error. -/
def walkExtra (m : List (List Char × List Char)) :
    List WalkEntry → List (List Char × List Char) × Bool
  | [] => (m, false)
  | e :: rest =>
    if e.isErr then (m, true)
    else
      match tarKeyOf e with
      | some key => walkExtra (mapSet m key e.path) rest
      | none => walkExtra m rest

/-- Reference recomputation of the walk restricted to one key: the path of
the last .tar visit filed under the key before the first error visit,
defaulting to the initial binding. -/
def tarWrites (k : List Char) : List WalkEntry → Option (List Char) → Option (List Char)
  | [], acc => acc
  | e :: rest, acc =>
    if e.isErr then acc
    else
      match tarKeyOf e with
      | some key => tarWrites k rest (if key = k then some e.path else acc)
      | none => tarWrites k rest acc

/-- The final map computed by the walk agrees, on every key, with the
last-write-before-first-error recomputation. -/
theorem walkExtra_mapGet (es : List WalkEntry)
    (m : List (List Char × List Char)) (k : List Char) :
    mapGet k (walkExtra m es).1 = tarWrites k es (mapGet k m) := by
  induction es generalizing m with
  | nil => rfl
  | cons e rest ih =>
    by_cases he : e.isErr
    · simp [walkExtra, tarWrites, he]
    · simp only [walkExtra, tarWrites, he, if_neg, Bool.false_eq_true,
        if_false]
      cases hkey : tarKeyOf e with
      | none => exact ih m
      | some key =>
        by_cases hk : key = k
        · subst hk
          rw [ih (mapSet m key e.path), mapGet_mapSet_self]
          simp
        · rw [ih (mapSet m key e.path), mapGet_mapSet_ne _ _ _ _ hk]
          simp [hk]

/-! ## The per-container-key operation queue

main.go line 128 constructs the queue as operationq.NewSlidingQueue(1),
with the comment that only one outstanding operation per container is
necessary.  The operationq implementation is not under src/, so its
behaviour is modelled from the spec (sections 4.1 and 9): a map from
container key to in-flight and pending-successor operations, a capped
worker pool, per-key mutual exclusion, and a per-key sliding window of
queued not-yet-started operations in which a newer push evicts the oldest
queued work.  Keys and operations are drawn from Nat. -/

/-- Modelled from the spec: the state of the operationq sliding queue,
whose implementation is missing from src/.  depth is the sliding-window
capacity fixed at construction, workers the worker-pool cap, inflight the
keys whose operation is currently executing, pending the queued
not-yet-started operations per key, oldest first. -/
structure OpQueue where
  depth : Nat
  workers : Nat
  inflight : List Nat
  pending : List (Nat × List Nat)
deriving DecidableEq

/-- The queued not-yet-started operations of one key. -/
def getPending (q : OpQueue) (k : Nat) : List Nat :=
  (mapGet k q.pending).getD []

/-- The sliding window: retain only the most recent d operations. -/
def slideWindow (d : Nat) (l : List Nat) : List Nat :=
  l.drop (l.length - d)

theorem slideWindow_length (d : Nat) (l : List Nat) :
    (slideWindow d l).length ≤ d := by
  simp only [slideWindow, List.length_drop]
  omega

/-- Modelled from the spec: Push(key, op) of the sliding queue.  The
operation joins the queued work for its key and the window drops the
oldest entries beyond the construction depth, so with depth 1 a queued
not-yet-started operation is evicted and replaced and an executing
operation retains a single pending successor. -/
def pushOp (q : OpQueue) (k op : Nat) : OpQueue :=
  { q with pending := mapSet q.pending k (slideWindow q.depth (getPending q k ++ [op])) }

/-- Modelled from the spec: the scheduler transitions of the sliding
queue.  A queued operation starts only when no operation for its key is
executing and a worker is free; completion releases the key. -/
inductive QStep : OpQueue → OpQueue → Prop
  | push (q : OpQueue) (k op : Nat) : QStep q (pushOp q k op)
  | start (q : OpQueue) (k op : Nat) (rest : List Nat) :
      k ∉ q.inflight →
      q.inflight.length < q.workers →
      getPending q k = op :: rest →
      QStep q { q with inflight := k :: q.inflight, pending := mapSet q.pending k rest }
  | complete (q : OpQueue) (k : Nat) :
      k ∈ q.inflight →
      QStep q { q with inflight := q.inflight.erase k }

/-- Reachability of queue states from an initial state. -/
def QReach (q0 : OpQueue) : OpQueue → Prop :=
  Relation.ReflTransGen QStep q0

/-- Modelled from the spec: NewSlidingQueue with a given window depth and
worker cap starts empty. -/
def newSlidingQueue (d w : Nat) : OpQueue :=
  { depth := d, workers := w, inflight := [], pending := [] }

/-- The queue constructed in main.go line 128: NewSlidingQueue(1). -/
def mainQueue (w : Nat) : OpQueue := newSlidingQueue 1 w

/-- The per-key pending-window bound, together with the construction depth
it is measured against. -/
def PendingBound (d : Nat) (q : OpQueue) : Prop :=
  q.depth = d ∧ ∀ k : Nat, (getPending q k).length ≤ d

theorem pendingBound_step {d : Nat} {q q2 : OpQueue}
    (hq : PendingBound d q) (hstep : QStep q q2) : PendingBound d q2 := by
  obtain ⟨hd, hb⟩ := hq
  cases hstep with
  | push k op =>
    refine ⟨hd, fun k2 => ?_⟩
    by_cases hk : k = k2
    · subst hk
      simp only [pushOp, getPending, mapGet_mapSet_self, Option.getD_some]
      rw [← hd]
      exact slideWindow_length q.depth _
    · simp only [pushOp, getPending, mapGet_mapSet_ne _ _ _ _ hk]
      exact hb k2
  | start k op rest hnin hw hp =>
    refine ⟨hd, fun k2 => ?_⟩
    by_cases hk : k = k2
    · subst hk
      simp only [getPending, mapGet_mapSet_self, Option.getD_some]
      have hlen := hb k
      rw [hp] at hlen
      simp only [getPending, List.length_cons] at hlen ⊢
      omega
    · simp only [getPending, mapGet_mapSet_ne _ _ _ _ hk]
      exact hb k2
  | complete k hk =>
    exact ⟨hd, hb⟩

/-- Every state reachable from a freshly constructed sliding queue keeps
every key's queued not-yet-started work within the construction depth. -/
theorem pendingBound_reach (d w : Nat) (q : OpQueue)
    (h : QReach (newSlidingQueue d w) q) : PendingBound d q := by
  induction h with
  | refl =>
    exact ⟨rfl, fun k => by simp [newSlidingQueue, getPending, mapGet]⟩
  | tail hsteps hstep ih =>
    exact pendingBound_step ih hstep

/-! ## Evacuation-context capability wiring (main.go lines 125-210)

evacuation_context.New returns three distinct values, bound in main as
evacuatable, evacuationReporter and evacuationNotifier.  main passes
evacuatable to both server handler sets (lines 166-167 via
initializeServer line 296), evacuationReporter to the AuctionCellRep
(line 154) and the OperationGenerator (line 177), and evacuationNotifier
to the Evacuator (line 134) and the Bulker (line 195). -/

/-- The three capabilities returned by evacuation_context.New. -/
inductive EvacCapability where
  | evacuatable
  | reporter
  | notifier
deriving DecidableEq

/-- The consumers of the evacuation context wired in main. -/
inductive Consumer where
  | opGenerator
  | bulker
  | auctionCellRep
  | httpHandlers
  | httpsHandlers
  | evacuator
deriving DecidableEq

/-- Every consumer, for exhaustive statements over the wiring. -/
def allConsumers : List Consumer :=
  [.opGenerator, .bulker, .auctionCellRep, .httpHandlers, .httpsHandlers, .evacuator]

theorem allConsumers_complete (c : Consumer) : c ∈ allConsumers := by
  cases c <;> simp [allConsumers]

/-- Which evacuation-context capability each consumer receives in main. -/
def receivesCap : Consumer → EvacCapability → Bool
  | .opGenerator, .reporter => true
  | .bulker, .notifier => true
  | .auctionCellRep, .reporter => true
  | .httpHandlers, .evacuatable => true
  | .httpsHandlers, .evacuatable => true
  | .evacuator, .notifier => true
  | _, _ => false

/-! ## Instance-allocation wiring of the reconciliation path
(main.go lines 128, 169-178, 191-200, 208) -/

/-- The constructor calls main makes for reconciliation collaborators, in
source order; each call allocates one fresh instance. -/
inductive AllocEvent where
  | newSlidingQueueCall
  | generatorNewCall
deriving DecidableEq

/-- The allocations main performs: one queue (line 128) and one operation
generator (line 169); instances are named by their position. -/
def mainAllocations : List AllocEvent :=
  [.newSlidingQueueCall, .generatorNewCall]

/-- The generator and queue instances passed to a consumer, as positions
in mainAllocations. -/
structure ReconArgs where
  generatorRef : Nat
  queueRef : Nat
deriving DecidableEq

/-- harmonizer.NewBulker(..., opGenerator, queue, ...) at line 191. -/
def bulkerArgs : ReconArgs := { generatorRef := 1, queueRef := 0 }

/-- harmonizer.NewEventConsumer(logger, opGenerator, queue) at line 208. -/
def eventConsumerArgs : ReconArgs := { generatorRef := 1, queueRef := 0 }

/-! ## Request-metric types, routes and group members
(main.go lines 162-165, 202-219, 296-297) -/

/-- requestTypes from main.go lines 162-164. -/
def requestTypes : List String :=
  ["State", "ContainerMetrics", "Perform", "Reset", "UpdateLRPInstance",
    "StopLRPInstance", "CancelTask"]

/-- The auction-surface operations named by the spec (section 6). -/
def auctionSurfaceOps : List String :=
  ["State", "Perform", "ContainerMetrics", "Reset", "UpdateLRPInstance",
    "StopLRPInstance", "CancelTask"]

/-- The four network-exclusive auction endpoints. -/
def exclusiveAuctionRoutes : List String :=
  ["Reset", "UpdateLRPInstance", "StopLRPInstance", "CancelTask"]

/-- Modelled from the spec: rep.NewRoutes(networkAccessible) (main.go line
297), whose implementation is missing from src/.  Spec section 6: the
auction surface is State, Perform, ContainerMetrics, Reset,
UpdateLRPInstance, StopLRPInstance, CancelTask, the last four reachable
only on the network-accessible listener. -/
def newRoutes (networkAccessible : Bool) : List String :=
  ["State", "Perform", "ContainerMetrics"] ++
    (if networkAccessible then exclusiveAuctionRoutes else [])

/-- The ordered-group member names of main.go lines 202-219: the executor
members are prepended, and a debug server is prepended when a debug
address is configured. -/
def memberNames (debugAddress : List Char) (executorMembers : List (List Char)) :
    List (List Char) :=
  (if debugAddress = [] then [] else ["debug-server".data]) ++
    executorMembers ++
    ["presence".data, "http_server".data, "https_server".data,
      "evacuation-cleanup".data, "bulker".data, "event-consumer".data,
      "evacuator".data, "request-metrics-notifier".data]

/-! ## The startup sequence of main (main.go lines 63-234)

The external collaborators are modelled by an environment fixing the
result each call would return; main.go's own control flow over those
results is embedded in source order.  logger.Fatal logs and panics;
panic and os.Exit both terminate the process before the supervised group
is ever invoked. -/

/-- The results of the external calls made during startup. -/
structure Env where
  configParse : Except (List Char) RepConfig
  executorValid : Bool
  metronOk : Bool
  extraEntries : List WalkEntry
  executorInitOk : Bool
  bbsClientOk : Bool
  localIP : Option (List Char)
  locketOk : Bool
  uuidOk : Bool
  resourcesOk : Bool
  certFile : PemFileContent
  x509parse : List Nat → Except (List Char) (List GoCert)
  tlsBuildOk : Bool

/-- A terminating startup outcome: a panic (also from logger.Fatal) or an
os.Exit. -/
inductive Term where
  | panicked (msg : List Char)
  | exited (code : Nat)
deriving DecidableEq

/-- The observable fate of the process in this model. -/
inductive Outcome where
  | panicked (msg : List Char)
  | exited (code : Nat)
  | serving
deriving DecidableEq

/-- Injection of a terminating outcome. -/
def Term.toOutcome : Term → Outcome
  | .panicked m => .panicked m
  | .exited c => .exited c

theorem Term.toOutcome_ne_serving (t : Term) : t.toOutcome ≠ .serving := by
  cases t <;> simp [Term.toOutcome]

/-- main.go lines 63-160 and 236-285: everything main does before
constructing the two servers.  Each early return carries the terminating
outcome the source produces there. -/
def preServer (env : Env) : Except Term RepConfig :=
  match env.configParse with
  | .error e => .error (.panicked e)
  | .ok cfg =>
    if !env.executorValid then .error (.panicked "failed-to-configure-executor".data)
    else if cfg.cellID = [] then .error (.exited 1)
    else if !env.metronOk then .error (.exited 1)
    else
      -- lines 103-116: the ExtraRootfsDir walk; its error is only logged
      -- at debug level, so it never changes the control flow
      let _walk := walkExtra cfg.preloadedRootFS env.extraEntries
      if !env.executorInitOk then .error (.exited 1)
      else if !env.bbsClientOk then
        .error (.panicked "failed-to-configure-secure-BBS-client".data)
      else
        match repURL cfg with
        | none => .error (.panicked "index out of range".data)
        | some _url =>
          match env.localIP with
          | none => .error (.panicked "failed-to-fetch-ip".data)
          | some ip =>
            match repAddress ip cfg with
            | none => .error (.panicked "index out of range".data)
            | some _addr =>
              if !env.locketOk then
                .error (.panicked "failed-to-construct-locket-client".data)
              else if !env.uuidOk then
                .error (.panicked "failed-to-generate-guid".data)
              else if !env.resourcesOk then
                .error (.panicked "failed-to-get-total-resources".data)
              else .ok cfg

/-- main.go lines 166-167 with 287-323: construction of the two servers.
Only the non-network-accessible server verifies the certificate; a
verification error is fatal, and the panic case of verifyCertificate
crashes the process. -/
def serverPhase (env : Env) : Except Term Unit :=
  match verifyCertificate env.x509parse env.certFile with
  | .err _ => .error (.panicked "tls-configuration-failed".data)
  | .panicked => .error (.panicked "index out of range".data)
  | .ok =>
    if !env.tlsBuildOk then .error (.panicked "tls-configuration-failed".data)
    else if !env.tlsBuildOk then .error (.panicked "tls-configuration-failed".data)
    else .ok ()

/-- The startup of main: the outcome reached and how many times
verifyCertificate ran.  serving means execution reached the invocation of
the supervised group with both servers constructed. -/
def mainStartup (env : Env) : Outcome × Nat :=
  match preServer env with
  | .error t => (t.toOutcome, 0)
  | .ok _cfg =>
    match serverPhase env with
    | .error t => (t.toOutcome, 1)
    | .ok _ => (.serving, 1)

/-- main.go lines 221-233: the whole run.  memberErrs are the errors with
which the supervised members of the ordered group terminate; per the
supervision contract (spec sections 7 and 9, first failure shuts the
group down and is returned from Wait), a non-nil member error surfaces
from monitor.Wait and main exits with status 1, otherwise main returns
normally, modelled as exit status 0. -/
def mainRun (env : Env) (memberErrs : List (Option (List Char))) : Outcome :=
  match (mainStartup env).1 with
  | .serving =>
    match memberErrs.findSome? id with
    | some _e => .exited 1
    | none => .exited 0
  | o => o

theorem findSome_id_of_mem {α : Type} (l : List (Option α)) (e : α)
    (h : some e ∈ l) : (l.findSome? id).isSome := by
  induction l with
  | nil => simp at h
  | cons x rest ih =>
    cases x with
    | none =>
      have h2 : some e ∈ rest := by
        rcases List.mem_cons.mp h with h1 | h1
        · exact absurd h1 (by simp)
        · exact h1
      simpa [List.findSome?] using ih h2
    | some a => simp [List.findSome?]

/-- A well-formed concrete configuration. -/
def cfgOK : RepConfig :=
  { cellID := "cell-z1-0".data
    listenAddr := "0.0.0.0:1800".data
    listenAddrSecurable := "0.0.0.0:1801".data
    advertiseDomain := "cell.service.cf.internal".data
    debugAddress := []
    preloadedRootFS := [("cflinuxfs4".data, "/var/vcap/packages/cflinuxfs4/rootfs.tar".data)] }

/-- A fully healthy environment: the configuration parses, every external
call succeeds, both listen addresses carry ports, and the certificate
file holds one certificate whose IP SANs include 127.0.0.1. -/
def envOK : Env :=
  { configParse := .ok cfgOK
    executorValid := true
    metronOk := true
    extraEntries := []
    executorInitOk := true
    bbsClientOk := true
    localIP := some "10.0.16.13".data
    locketOk := true
    uuidOk := true
    resourcesOk := true
    certFile := .blocks [[55]] false
    x509parse := fun der =>
      if der = [55] then .ok [{ ipAddresses := [[127, 0, 0, 1]] }]
      else .error "bad der".data
    tlsBuildOk := true }

theorem envOK_serving : (mainStartup envOK).1 = .serving := by decide

/-! ## The claims -/

/-- Claim C1: the operation queue is constructed as a sliding queue of
depth 1 (main.go line 128), so in every queue state reachable from that
construction, every container key retains at most one pending successor
operation behind a currently executing operation. -/
theorem c1_sliding_queue_depth_one (w : Nat) (q : OpQueue)
    (h : QReach (mainQueue w) q) :
    (mainQueue w).depth = 1 ∧ ∀ k : Nat, (getPending q k).length ≤ 1 :=
  ⟨rfl, (pendingBound_reach 1 w q h).2⟩

/-- Witness for C1: after two pushes for the same key, at most one pending
operation remains. -/
theorem c1_sliding_queue_depth_one_witness :
    (getPending (pushOp (pushOp (mainQueue 3) 7 100) 7 101) 7).length ≤ 1 :=
  (c1_sliding_queue_depth_one 3 _
    (Relation.ReflTransGen.tail
      (Relation.ReflTransGen.single (QStep.push _ 7 100))
      (QStep.push _ 7 101))).2 7

/-- Claim C2 is false on the code: no evacuation-context capability — in
particular not the write capability — is received by the Evacuator
exclusively, because the Bulker receives the same evacuationNotifier that
the Evacuator receives (main.go lines 134 and 195). -/
theorem c2_counterexample :
    ¬ ∃ w : EvacCapability, receivesCap .evacuator w = true ∧
      ∀ c : Consumer, c ≠ .evacuator → receivesCap c w = false := by
  rintro ⟨w, hw, hex⟩
  cases w with
  | evacuatable => exact absurd hw (by decide)
  | reporter => exact absurd hw (by decide)
  | notifier =>
    have hb := hex .bulker (by decide)
    simp [receivesCap] at hb

/-- All three capabilities, for exhaustive statements. -/
def allCaps : List EvacCapability := [.evacuatable, .reporter, .notifier]

theorem allCaps_complete (k : EvacCapability) : k ∈ allCaps := by
  cases k <;> simp [allCaps]

/-- Claim C2 amended: main distributes the three evacuation-context
capabilities as follows — the Evacuatable to the HTTP and HTTPS request
handlers, the read-side reporter to the OperationGenerator and the
AuctionCellRep, and the notifier to both the Bulker and the Evacuator;
hence every capability the Evacuator receives is also received by the
Bulker, and none is exclusive to the Evacuator. -/
theorem c2_capability_wiring :
    (∀ c ∈ allConsumers, ∀ k ∈ allCaps,
      (receivesCap c k = true ↔ (c, k) ∈
        ([(.opGenerator, .reporter), (.auctionCellRep, .reporter),
          (.httpHandlers, .evacuatable), (.httpsHandlers, .evacuatable),
          (.bulker, .notifier), (.evacuator, .notifier)] :
            List (Consumer × EvacCapability))))
    ∧ (∀ k ∈ allCaps, receivesCap .evacuator k = true →
        receivesCap .bulker k = true) := by
  decide

/-- Witness for C2 amended: the Bulker receives the notifier. -/
theorem c2_capability_wiring_witness : receivesCap .bulker .notifier = true :=
  (c2_capability_wiring.1 .bulker (by decide) .notifier (by decide)).mpr (by decide)

/-- Claim C6: main allocates exactly one sliding queue and exactly one
operation generator, and the Bulker and the EventConsumer are constructed
with that same generator instance and that same queue instance. -/
theorem c6_shared_generator_and_queue :
    bulkerArgs = eventConsumerArgs
    ∧ mainAllocations.count .newSlidingQueueCall = 1
    ∧ mainAllocations.count .generatorNewCall = 1
    ∧ mainAllocations[bulkerArgs.queueRef]? = some .newSlidingQueueCall
    ∧ mainAllocations[bulkerArgs.generatorRef]? = some .generatorNewCall := by
  decide

/-- Claim C7: the request types registered for request metrics are exactly
the seven auction-surface operations, no more and no fewer. -/
theorem c7_request_types_exactly_auction_surface :
    requestTypes.Perm auctionSurfaceOps ∧ requestTypes.Nodup
      ∧ requestTypes.length = 7 := by
  decide

theorem mainStartup_of_preServer_error {env : Env} {t : Term}
    (h : preServer env = .error t) : mainStartup env = (t.toOutcome, 0) := by
  simp [mainStartup, h]

/-- Claim C3: the four auction endpoints Reset, UpdateLRPInstance,
StopLRPInstance and CancelTask are routed only on the network-accessible
listener; startup performs the certificate IP-SAN validation at most
once, exactly once on every run that reaches serving, and a validation
error is fatal before any server serves. -/
theorem c3_exclusive_routes_verified_once :
    (∀ (b : Bool), ∀ r ∈ exclusiveAuctionRoutes, (r ∈ newRoutes b ↔ b = true))
    ∧ (∀ env : Env, (mainStartup env).1 = .serving → (mainStartup env).2 = 1)
    ∧ (∀ env : Env, (mainStartup env).2 ≤ 1)
    ∧ (∀ env : Env, ∀ m : List Char,
        verifyCertificate env.x509parse env.certFile = .err m →
        (mainStartup env).1 ≠ .serving) := by
  refine ⟨?_, ?_, ?_, ?_⟩
  · intro b r hr
    simp only [exclusiveAuctionRoutes, List.mem_cons, List.not_mem_nil,
      or_false] at hr
    rcases hr with rfl | rfl | rfl | rfl <;> cases b <;>
      simp [newRoutes, exclusiveAuctionRoutes]
  · intro env hs
    cases hp : preServer env with
    | error t =>
      rw [mainStartup_of_preServer_error hp] at hs
      exact absurd hs t.toOutcome_ne_serving
    | ok cfg =>
      cases hsv : serverPhase env with
      | error t2 => simp [mainStartup, hp, hsv]
      | ok u => simp [mainStartup, hp, hsv]
  · intro env
    cases hp : preServer env with
    | error t => simp [mainStartup, hp]
    | ok cfg =>
      cases hsv : serverPhase env with
      | error t2 => simp [mainStartup, hp, hsv]
      | ok u => simp [mainStartup, hp, hsv]
  · intro env m hv
    cases hp : preServer env with
    | error t =>
      rw [mainStartup_of_preServer_error hp]
      exact t.toOutcome_ne_serving
    | ok cfg =>
      have hsv : serverPhase env =
          .error (.panicked "tls-configuration-failed".data) := by
        simp [serverPhase, hv]
      simp [mainStartup, hp, hsv, Term.toOutcome]

/-- Witness for C3: the healthy environment serves after exactly one
certificate validation, and Reset is on the network-accessible routes. -/
theorem c3_exclusive_routes_verified_once_witness :
    (mainStartup envOK).2 = 1 ∧ ("Reset" ∈ newRoutes true ↔ true = true) :=
  ⟨c3_exclusive_routes_verified_once.2.1 envOK (by decide),
    c3_exclusive_routes_verified_once.1 true "Reset" (by decide)⟩

/-- Claim C4: when the configuration file fails to parse, the executor
configuration fails validation, or the CellID is empty, the process
terminates by panic or exit before any server begins serving. -/
theorem c4_startup_errors_fatal_before_serving (env : Env)
    (h : (∃ e, env.configParse = .error e) ∨
      ∃ cfg, env.configParse = .ok cfg ∧
        (env.executorValid = false ∨ cfg.cellID = [])) :
    (mainStartup env).1 ≠ .serving ∧
      ((∃ m, (mainStartup env).1 = .panicked m) ∨
        ∃ c, (mainStartup env).1 = .exited c) := by
  have hterm : ∃ t, preServer env = .error t := by
    rcases h with ⟨e, he⟩ | ⟨cfg, hok, hbad⟩
    · exact ⟨.panicked e, by simp [preServer, he]⟩
    · rcases hbad with hval | hcell
      · exact ⟨.panicked "failed-to-configure-executor".data,
          by simp [preServer, hok, hval]⟩
      · by_cases hv : env.executorValid
        · exact ⟨.exited 1, by simp [preServer, hok, hv, hcell]⟩
        · exact ⟨.panicked "failed-to-configure-executor".data,
            by simp [preServer, hok, hv]⟩
  obtain ⟨t, ht⟩ := hterm
  rw [mainStartup_of_preServer_error ht]
  refine ⟨t.toOutcome_ne_serving, ?_⟩
  cases t with
  | panicked m => exact .inl ⟨m, rfl⟩
  | exited c => exact .inr ⟨c, rfl⟩

/-- Witness for C4: an otherwise healthy environment with an empty CellID
terminates before serving. -/
theorem c4_startup_errors_fatal_before_serving_witness :
    (mainStartup { envOK with configParse := .ok { cfgOK with cellID := [] } }).1
        ≠ .serving ∧
      ((∃ m, (mainStartup { envOK with
          configParse := .ok { cfgOK with cellID := [] } }).1 = .panicked m) ∨
        ∃ c, (mainStartup { envOK with
          configParse := .ok { cfgOK with cellID := [] } }).1 = .exited c) :=
  c4_startup_errors_fatal_before_serving _ (.inr ⟨_, rfl, .inr rfl⟩)

/-- Claim C5: the presence runner is among the supervised members of the
ordered group, and on any run that reaches serving, a non-nil termination
error of any supervised member makes the process exit with status 1. -/
theorem c5_member_failure_exits_one :
    (∀ (dbg : List Char) (em : List (List Char)),
      "presence".data ∈ memberNames dbg em)
    ∧ (∀ (env : Env) (errs : List (Option (List Char))) (e : List Char),
        (mainStartup env).1 = .serving → some e ∈ errs →
        mainRun env errs = .exited 1) := by
  constructor
  · intro dbg em
    simp [memberNames]
  · intro env errs e hs hm
    unfold mainRun
    rw [hs]
    obtain ⟨x, hx⟩ := Option.isSome_iff_exists.mp (findSome_id_of_mem errs e hm)
    rw [hx]

/-- Witness for C5: with a healthy startup and a failed presence lease the
process exits 1. -/
theorem c5_member_failure_exits_one_witness :
    mainRun envOK [none, some "lease-renewal-failed".data] = .exited 1 :=
  c5_member_failure_exits_one.2 envOK _ "lease-renewal-failed".data
    (by decide) (by decide)

/-- Claim C8: given that x509.ParseCertificates succeeds with an empty
slice on empty input, verifyCertificate returns an error on unreadable
files, on undecodable PEM (no block, or residual text after the blocks)
and on unparsable certificates; when at least one certificate is parsed
it returns nil exactly when the first certificate includes 127.0.0.1
among its IP SANs; and on a file consisting solely of PEM blocks with
empty bodies it panics with an index out of range at certs[0]. -/
theorem c8_verify_certificate_totality
    (parse : List Nat → Except (List Char) (List GoCert))
    (hnil : parse [] = .ok []) :
    (verifyCertificate parse .unreadable = .err "read-error".data)
    ∧ (∀ g, verifyCertificate parse (.blocks [] g) =
        .err "failed parsing cert".data)
    ∧ (∀ bs, bs ≠ [] → verifyCertificate parse (.blocks bs true) =
        .err "failed parsing cert".data)
    ∧ (∀ bs g der e, pemCollect bs g = some der → parse der = .error e →
        verifyCertificate parse (.blocks bs g) =
          .err ("failed parsing cert: ".data ++ e))
    ∧ (∀ bs g der c cs, pemCollect bs g = some der → parse der = .ok (c :: cs) →
        (verifyCertificate parse (.blocks bs g) = .ok ↔
          localhostIP ∈ c.ipAddresses))
    ∧ (∀ bs, bs ≠ [] → (∀ b ∈ bs, b = []) →
        verifyCertificate parse (.blocks bs false) = .panicked) := by
  refine ⟨rfl, fun g => rfl, ?_, ?_, ?_, ?_⟩
  · intro bs hbs
    simp [verifyCertificate, pemCollect_garbage bs hbs]
  · intro bs g der e hpem hparse
    simp [verifyCertificate, hpem, hparse]
  · intro bs g der c cs hpem hparse
    simp only [verifyCertificate, hpem, hparse]
    by_cases hmem : localhostIP ∈ c.ipAddresses <;> simp [hmem]
  · intro bs hbs hall
    simp [verifyCertificate, pemCollect_all_empty bs hbs hall, hnil]

/-- A concrete model of x509.ParseCertificates that accepts exactly the
empty DER input. -/
def emptyOnlyParse : List Nat → Except (List Char) (List GoCert) :=
  fun der => if der = [] then .ok [] else .error "unparsable".data

/-- Witness for C8: two PEM blocks with empty bodies drive verifyCertificate
into the certs[0] panic. -/
theorem c8_verify_certificate_totality_witness :
    verifyCertificate emptyOnlyParse (.blocks [[], []] false) = .panicked :=
  (c8_verify_certificate_totality emptyOnlyParse rfl).2.2.2.2.2
    [[], []] (by decide) (by decide)

/-- Claim C9: repURL and repAddress index element 1 of splitting the
respective listen address on a colon, so a configuration whose
ListenAddrSecurable or ListenAddr contains no colon drives a startup that
got past the earlier checks into a panic (index out of range) rather than
a reported configuration error. -/
theorem c9_listen_addr_without_colon_panics (cfg : RepConfig) :
    ((∀ c ∈ cfg.listenAddrSecurable, c ≠ ':') → repURL cfg = none)
    ∧ (∀ ip, (∀ c ∈ cfg.listenAddr, c ≠ ':') → repAddress ip cfg = none)
    ∧ (∀ env : Env, env.configParse = .ok cfg → env.executorValid = true →
        cfg.cellID ≠ [] → env.metronOk = true → env.executorInitOk = true →
        env.bbsClientOk = true →
        (((∀ c ∈ cfg.listenAddrSecurable, c ≠ ':') →
            (mainStartup env).1 = .panicked "index out of range".data)
          ∧ (∀ u ip, repURL cfg = some u → env.localIP = some ip →
              (∀ c ∈ cfg.listenAddr, c ≠ ':') →
              (mainStartup env).1 = .panicked "index out of range".data))) := by
  refine ⟨repURL_of_no_colon cfg, fun ip => repAddress_of_no_colon ip cfg, ?_⟩
  intro env hok hval hcell hmetron hexec hbbs
  constructor
  · intro hcolon
    have hpre : preServer env = .error (.panicked "index out of range".data) := by
      simp [preServer, hok, hval, hcell, hmetron, hexec, hbbs,
        repURL_of_no_colon cfg hcolon]
    rw [mainStartup_of_preServer_error hpre]
    rfl
  · intro u ip hu hip hcolon2
    have hpre : preServer env = .error (.panicked "index out of range".data) := by
      simp [preServer, hok, hval, hcell, hmetron, hexec, hbbs, hu, hip,
        repAddress_of_no_colon ip cfg hcolon2]
    rw [mainStartup_of_preServer_error hpre]
    rfl

/-- Witness for C9: a securable listen address without a colon panics the
startup. -/
theorem c9_listen_addr_without_colon_panics_witness :
    (mainStartup { envOK with
        configParse := .ok { cfgOK with listenAddrSecurable := "noport".data } }).1
      = .panicked "index out of range".data :=
  ((c9_listen_addr_without_colon_panics
        { cfgOK with listenAddrSecurable := "noport".data }).2.2
      _ rfl rfl (by decide) rfl rfl rfl).1 (by decide)

/-- Claim C10 is false on the code: a directory-walk error stops
filepath.WalkDir entirely, so a .tar file visited after an error visit
gains no map entry — here extra.tar has the .tar extension yet the final
map has no binding for its base name. -/
theorem c10_counterexample :
    eqFoldGo (extGo "stacks/extra.tar".data) tarSuffixLit = true
    ∧ mapGet "extra".data
        (walkExtra []
          [{ path := "stacks".data, isErr := true },
            { path := "stacks/extra.tar".data, isErr := false }]).1 = none := by
  decide

/-- Claim C10 amended: the walk processes visits in order until the first
error; every error-free visit whose extension equals ".tar"
case-insensitively sets the map entry for its base name without the
extension to its full path, overwriting any existing entry including
preloaded stacks, so each key ends bound to the last matching file
visited before the first error; the walk error itself is only logged at
debug level and never changes the startup outcome. -/
theorem c10_walk_last_write_before_error :
    (∀ (es : List WalkEntry) (m : List (List Char × List Char)) (k : List Char),
      mapGet k (walkExtra m es).1 = tarWrites k es (mapGet k m))
    ∧ (∀ (m : List (List Char × List Char)) (e : WalkEntry) (key : List Char),
        e.isErr = false → tarKeyOf e = some key →
        mapGet key (walkExtra m [e]).1 = some e.path)
    ∧ (∀ (env : Env) (es : List WalkEntry),
        mainStartup { env with extraEntries := es } = mainStartup env) := by
  refine ⟨walkExtra_mapGet, ?_, ?_⟩
  · intro m e key he hkey
    simp [walkExtra, he, hkey, mapGet_mapSet_self]
  · intro env es
    cases env
    rfl

/-- Witness for C10 amended: a single error-free .tar visit overwrites the
preloaded binding of its base name. -/
theorem c10_walk_last_write_before_error_witness :
    mapGet "extra".data
      (walkExtra [("extra".data, "preloaded.tar".data)]
        [{ path := "dir/extra.tar".data, isErr := false }]).1
      = some "dir/extra.tar".data :=
  c10_walk_last_write_before_error.2.1 _
    { path := "dir/extra.tar".data, isErr := false } "extra".data
    (by decide) (by decide)

end RepMain
